import Mathlib

/-!
Verification development for the ATLAS adaptive probing engine.

Shallow embedding of the agent core:
  - path classification and selection (src/pathUtils.js, src/graph.js),
  - the probe dispatcher with its budget and path bookkeeping
    (src/graph.js dispatchTool, src/tools.js httpGet / measureTiming),
  - the tool-diversity enforcement (src/graph.js shouldForceTool, cortexNode),
  - the stop-condition router (src/graph.js decisionRouter),
  - the Cortex retry/fallback protocol (src/cortex.js runCortex, stubDecision),
  - the findings extractor and trace reporter (src/reporter.js).

JavaScript objects keyed by strings are embedded as insertion-ordered
association lists, JS string falsiness as equality with the empty string,
and the HTTP layer as an explicit transport outcome argument
(`Except String HttpResp`, where `.error` is a transport failure).
-/

namespace Atlas

/-- Modelled from the spec: `src/config.js` is imported by graph.js, tools.js
and cortex.js but is not among the sources; defaults per spec section 6.
Per-run HTTP request budget. -/
def MAX_REQ_PER_RUN : Nat := 80

/-- Modelled from the spec: `src/config.js` is absent; default per spec
section 6. Reasoning-loop hop cap. -/
def MAX_HOPS : Nat := 40

/-- Modelled from the spec: `src/config.js` is absent; default per spec
section 6. Per-path request cap. -/
def MAX_HITS_PER_PATH : Nat := 2

/-- File extensions considered static assets (src/constants.js). -/
def STATIC_EXTENSIONS : List String :=
  [".css", ".js", ".ico", ".png", ".jpg", ".jpeg", ".svg", ".gif",
   ".webp", ".woff", ".woff2", ".ttf", ".map", ".eot"]

/-- Number of hops between forced tool diversity checks (src/constants.js). -/
def DIVERSITY_INTERVAL : Nat := 5

/-- Tools that must be used periodically for coverage (src/constants.js). -/
def REQUIRED_DIVERSITY_TOOLS : List String := ["inspect_headers", "provoke_error"]

/-- Substrings of AUTH_PATH_PATTERNS in src/constants.js: the single regex
alternation `(login|auth|admin|signin|account|user|profile|register|password|token|session)`
is an unanchored substring match. -/
def AUTH_PATTERN_WORDS : List String :=
  ["login", "auth", "admin", "signin", "account", "user", "profile",
   "register", "password", "token", "session"]

/-- Substrings of SENSITIVE_PATH_PATTERNS in src/constants.js; the `.` in
`\.git` and `\.env` is an escaped literal dot. -/
def SENSITIVE_PATTERN_WORDS : List String :=
  ["swagger", "openapi", "config", "debug", "backup", "ftp", ".git", ".env", "docs"]

/-- Character-list test: the first list occurs at the head of the second. -/
def charsLeadWith : List Char → List Char → Bool
  | [], _ => true
  | _ :: _, [] => false
  | a :: as, b :: bs => a = b && charsLeadWith as bs

/-- Character-list test: the first list occurs somewhere inside the second. -/
def charsOccurIn (sub : List Char) : List Char → Bool
  | [] => charsLeadWith sub []
  | c :: cs => charsLeadWith sub (c :: cs) || charsOccurIn sub cs

/-- Character-list test: the first list occurs at the end of the second. -/
def charsEndWith (sub s : List Char) : Bool :=
  charsLeadWith sub.reverse s.reverse

/-- ASCII lowercasing of one character, embedding String.prototype.toLowerCase
on the ASCII paths the agent handles. -/
def lowerChar (c : Char) : Char :=
  if 'A' ≤ c ∧ c ≤ 'Z' then Char.ofNat (c.toNat + 32) else c

/-- Lowercased character list of a string. -/
def lowerChars (s : String) : List Char :=
  s.toList.map lowerChar

/-- Substring test on strings, used to embed the unanchored regex matches of
constants.js. -/
def containsSubstring (s sub : List Char) : Bool :=
  charsOccurIn sub s

/-- isStaticPath from src/pathUtils.js: lowercase, take the part before the
first question mark (split("?")[0]), then test the static extensions. -/
def isStaticPath (path : String) : Bool :=
  if path = "" then false
  else
    let lower := (lowerChars path).takeWhile (fun c => c ≠ '?')
    STATIC_EXTENSIONS.any (fun ext => charsEndWith ext.toList lower)

/-- isApiPath from src/pathUtils.js: the regex is anchored at the start,
`^/(api|rest|v[0-9]+|graphql)`, case-insensitive. -/
def isApiPath (path : String) : Bool :=
  if path = "" then false
  else
    let lower := lowerChars path
    charsLeadWith "/api".toList lower || charsLeadWith "/rest".toList lower ||
    charsLeadWith "/graphql".toList lower ||
    (charsLeadWith "/v".toList lower && ((lower.drop 2).headD 'x').isDigit)

/-- isAuthPath from src/pathUtils.js: unanchored substring alternation,
case-insensitive. -/
def isAuthPath (path : String) : Bool :=
  if path = "" then false
  else
    let lower := lowerChars path
    AUTH_PATTERN_WORDS.any (fun w => containsSubstring lower w.toList)

/-- isSensitivePath from src/pathUtils.js. -/
def isSensitivePath (path : String) : Bool :=
  if path = "" then false
  else
    let lower := lowerChars path
    SENSITIVE_PATTERN_WORDS.any (fun w => containsSubstring lower w.toList)

/-- isApiOrAuthPath from src/pathUtils.js. -/
def isApiOrAuthPath (path : String) : Bool :=
  if path = "" then false
  else isApiPath path || isAuthPath path || isSensitivePath path

/-- Observation shaped by toObservation in src/httpClient.js; header keys are
lowercased there. The `tool-epoch-rand` id is kept as an opaque string. -/
structure Observation where
  id : String
  tool : String
  label : String
  url : String
  method : String
  status : Nat
  headers : List (String × String)
  bodySnippet : String
  note : Option String
  deriving DecidableEq

/-- ReasoningEntry appended to state.reasoningLog; confidence is the JS number
literal, embedded as a rational. -/
structure ReasoningEntry where
  thought : String
  hypothesis : String
  owasp_category : Option String
  confidence_0_1 : Rat
  observation_ref : Option String
  deriving DecidableEq

/-- Error entry pushed onto metrics.errors, either by recordError in
src/tools.js (tool, url, message) or by the dispatchTool catch block in
src/graph.js (tool, path, error message). -/
structure ErrorEntry where
  tool : String
  target : String
  message : String
  deriving DecidableEq

/-- Metrics object from createInitialState in src/state.js. -/
structure Metrics where
  requests : Nat
  perTool : List (String × Nat)
  errors : List ErrorEntry
  deriving DecidableEq

/-- Per-path statistics kept by updatePathStats in src/state.js (the
timestamp field lastAt is dropped from the embedding). -/
structure PathStat where
  lastStatus : Option Nat
  lastTool : Option String
  lastObservationId : Option String
  hits : Nat
  deriving DecidableEq

/-- Decision entry pushed by cortexNode in src/graph.js (timestamp dropped). -/
structure DecisionEntry where
  hop : Nat
  decision : String
  next_tool : Option String
  path : Option String
  deriving DecidableEq

/-- llmMeta recorded by runCortex / stubDecision in src/cortex.js. -/
structure LlmMeta where
  attempts : Nat
  usedFallback : Bool
  model : Option String
  error : Option String
  reason : Option String
  deriving DecidableEq

/-- The shared run state of src/state.js createInitialState, restricted to the
fields the verified components read or write. -/
structure AgentState where
  runId : String
  runStartedAt : String
  observations : List Observation
  reasoningLog : List ReasoningEntry
  decision : String
  metrics : Metrics
  toolUsage : List (String × Nat)
  llmMeta : Option LlmMeta
  visitedPaths : List String
  hops : Nat
  stopReason : Option String
  decisions : List DecisionEntry
  candidates : List String
  lastAction : Option (String × String)
  pathHits : List (String × Nat)
  pathStats : List (String × PathStat)
  skippedHops : Nat
  consecutiveSkips : Nat
  deriving DecidableEq

/-- createInitialState from src/state.js (runId and timestamps are passed in
since Date.now is external). -/
def createInitialState (runId startedAt : String) : AgentState :=
  { runId := runId
    runStartedAt := startedAt
    observations := []
    reasoningLog := []
    decision := "probe"
    metrics := { requests := 0, perTool := [], errors := [] }
    toolUsage :=
      [("http_get", 0), ("http_post", 0), ("inspect_headers", 0),
       ("provoke_error", 0), ("measure_timing", 0), ("captcha_fetch", 0)]
    llmMeta := none
    visitedPaths := []
    hops := 0
    stopReason := none
    decisions := []
    candidates := []
    lastAction := none
    pathHits := []
    pathStats := []
    skippedHops := 0
    consecutiveSkips := 0 }

/-- Read a counter from a JS object embedded as an association list; a missing
key reads as 0, matching the `?? 0` idiom. -/
def getCount : List (String × Nat) → String → Nat
  | [], _ => 0
  | (k, v) :: rest, key => if k = key then v else getCount rest key

/-- Write `obj[key] = (obj[key] ?? 0) + n` on the association-list embedding,
preserving JS object insertion order. -/
def bumpCount : List (String × Nat) → String → Nat → List (String × Nat)
  | [], key, n => [(key, n)]
  | (k, v) :: rest, key, n =>
    if k = key then (k, v + n) :: rest else (k, v) :: bumpCount rest key n

/-- markVisited from src/graph.js. -/
def markVisited (s : AgentState) (path : String) : AgentState :=
  if path = "" then s
  else if s.visitedPaths.contains path then s
  else { s with visitedPaths := s.visitedPaths ++ [path] }

/-- recordHit from src/graph.js. -/
def recordHit (s : AgentState) (path : String) : AgentState :=
  if path = "" then s
  else { s with pathHits := bumpCount s.pathHits path 1 }

/-- canHit from src/graph.js. -/
def canHit (s : AgentState) (path : String) : Bool :=
  if path = "" then false
  else decide (getCount s.pathHits path < MAX_HITS_PER_PATH)

/-- The `staticAndSeen` test appearing in consumeCandidate and choosePath in
src/graph.js: a static path with at least one recorded hit. -/
def staticAndSeen (s : AgentState) (path : String) : Bool :=
  isStaticPath path && decide (getCount s.pathHits path ≥ 1)

/-- Eligibility test of the candidate-consuming loops in src/graph.js
consumeCandidate: not visited, below the hit cap, not a seen static. -/
def candidateEligible (s : AgentState) (path : String) : Bool :=
  !(s.visitedPaths.contains path) && canHit s path && !(staticAndSeen s path)

/-- First pass of consumeCandidate (preferApi = true) in src/graph.js: scan
for the first eligible API/auth path and splice it out, leaving every other
entry in place. -/
def findApiCandidate (s : AgentState) : List String → Option (String × List String)
  | [] => none
  | p :: rest =>
    if candidateEligible s p && isApiOrAuthPath p then some (p, rest)
    else
      match findApiCandidate s rest with
      | some (q, rest') => some (q, p :: rest')
      | none => none

/-- Second pass of consumeCandidate in src/graph.js: shift entries off the
front of the queue until an eligible one is found; shifted ineligible entries
are discarded. Returns the selection and the remaining queue. -/
def fifoConsume (s : AgentState) : List String → Option String × List String
  | [] => (none, [])
  | p :: rest =>
    if candidateEligible s p then (some p, rest) else fifoConsume s rest

/-- consumeCandidate from src/graph.js: with preferApi, try the API/auth scan
first; in all cases fall through to the FIFO pass. The in-place mutation of
state.candidates is made explicit: the queue is passed in and the mutated
queue returned alongside the selection; the eligibility tests read the rest of
the state, which consumeCandidate never mutates. -/
def consumeCandidate (s : AgentState) (cands : List String) (preferApi : Bool) :
    Option String × List String :=
  if preferApi then
    match findApiCandidate s cands with
    | some (p, rest) => (some p, rest)
    | none => fifoConsume s cands
  else fifoConsume s cands

/-- The `sameAsLast` test in choosePath in src/graph.js. -/
def sameAsLast (s : AgentState) (toolName desired : String) : Bool :=
  match s.lastAction with
  | some (t, p) => t = toolName && p = desired
  | none => false

/-- choosePath from src/graph.js. The desired path is accepted only when it is
truthy, not a repeat of lastAction for the same tool, below its hit cap, not a
seen static, and not static at all; otherwise the candidate queue is consumed
(preferring API/auth paths) with its JS in-place mutation made explicit in the
returned queue. -/
def choosePath (s : AgentState) (toolName : String) (desiredPath : Option String) :
    Option String × List String :=
  let desiredOk :=
    match desiredPath with
    | none => false
    | some d =>
      d ≠ "" && !(sameAsLast s toolName d) && canHit s d &&
      !(staticAndSeen s d) && !(isStaticPath d)
  if desiredOk then (desiredPath, s.candidates)
  else
    match consumeCandidate s s.candidates true with
    | (some p, rest) => (some p, rest)
    | (none, rest₁) => consumeCandidate s rest₁ false

/-- Key-presence test on a JS object embedded as an association list,
matching the `in` operator used by trackToolUsage. -/
def hasKey : List (String × Nat) → String → Bool
  | [], _ => false
  | (k, _) :: rest, key => k = key || hasKey rest key

/-- trackToolUsage from src/graph.js: increments only keys already present in
state.toolUsage. -/
def trackToolUsage (usage : List (String × Nat)) (tool : String) : List (String × Nat) :=
  if hasKey usage tool then bumpCount usage tool 1 else usage

/-- Lookup in the pathStats association list. -/
def getStat : List (String × PathStat) → String → Option PathStat
  | [], _ => none
  | (k, v) :: rest, key => if k = key then some v else getStat rest key

/-- Insert-or-replace in the pathStats association list, preserving JS object
insertion order. -/
def setStat : List (String × PathStat) → String → PathStat → List (String × PathStat)
  | [], key, v => [(key, v)]
  | (k, w) :: rest, key, v =>
    if k = key then (k, v) :: rest else (k, w) :: setStat rest key v

/-- updatePathStats from src/state.js (the lastAt timestamp is dropped). -/
def updatePathStats (s : AgentState) (path : String) (status : Option Nat)
    (tool : Option String) (obsId : Option String) : AgentState :=
  if path = "" then s
  else
    let prev := (getStat s.pathStats path).getD
      { lastStatus := none, lastTool := none, lastObservationId := none, hits := 0 }
    let next : PathStat :=
      { lastStatus := status <|> prev.lastStatus
        lastTool := tool <|> prev.lastTool
        lastObservationId := obsId <|> prev.lastObservationId
        hits := prev.hits + 1 }
    { s with pathStats := setStat s.pathStats path next }

/-- Modelled from the spec: `src/config.js` is absent; default per spec
section 6. The allowlisted origin. -/
def TARGET_URL : String := "http://target:3000"

/-- buildUrl from src/tools.js; URL resolution of an absolute path against the
target origin is string concatenation. -/
def buildUrl (path : String) : String :=
  TARGET_URL ++ path

/-- Transport outcome of one HTTP request: `Except.error` is a transport
failure (timeout, DNS, refused) carrying the error message, `Except.ok` any
1xx-5xx response. `links` abstracts the output of extractPathsFromContent plus
URL resolution in src/tools.js addCandidatesFromContent: the raw candidate
path strings discovered in the response body. -/
structure HttpResp where
  status : Nat
  headers : List (String × String)
  body : String
  links : List String
  deriving DecidableEq

/-- toObservation from src/httpClient.js; the `tool-epoch-rand` id suffix and
latency are abstracted (deterministic id, no latency field). -/
def toObservation (tool label url method : String) (note : Option String)
    (resp : HttpResp) : Observation :=
  { id := tool ++ "-obs"
    tool := tool
    label := label
    url := url
    method := method
    status := resp.status
    headers := resp.headers
    bodySnippet := resp.body
    note := note }

/-- addObservation from src/state.js. -/
def addObservation (s : AgentState) (o : Observation) : AgentState :=
  { s with observations := s.observations ++ [o] }

/-- addCandidate from src/tools.js: skips falsy paths, paths already visited,
and paths already queued. -/
def addCandidate (s : AgentState) (path : String) : AgentState :=
  if path = "" then s
  else if s.visitedPaths.contains path then s
  else if s.candidates.contains path then s
  else { s with candidates := s.candidates ++ [path] }

/-- addCandidatesFromContent from src/tools.js, applied to the resolved raw
paths: static assets are filtered out before addCandidate. -/
def addCandidatesFromContent (s : AgentState) (links : List String) : AgentState :=
  links.foldl (fun st p => if isStaticPath p then st else addCandidate st p) s

/-- incrementMetrics from src/tools.js. -/
def incrementMetrics (s : AgentState) (tool : String) (count : Nat) : AgentState :=
  { s with metrics :=
      { s.metrics with
          requests := s.metrics.requests + count
          perTool := bumpCount s.metrics.perTool tool count } }

/-- recordError from src/tools.js. -/
def recordError (s : AgentState) (tool url msg : String) : AgentState :=
  { s with metrics :=
      { s.metrics with errors := s.metrics.errors ++ [⟨tool, url, msg⟩] } }

/-- Message thrown by checkBudget in src/tools.js. -/
def budgetErrorMessage : String :=
  "Request budget exceeded (" ++ toString MAX_REQ_PER_RUN ++ ")"

/-- httpGet from src/tools.js: budget gate, metrics increment, then the
request; a transport failure records the error and rethrows (the thrown
message is the Except.error value); a response is logged as an observation and
mined for candidates. -/
def httpGet (s : AgentState) (path label : String) (http : Except String HttpResp) :
    AgentState × Except String Observation :=
  if s.metrics.requests ≥ MAX_REQ_PER_RUN then
    (s, Except.error budgetErrorMessage)
  else
    let s := incrementMetrics s "httpGet" 1
    let url := buildUrl path
    match http with
    | Except.error e => (recordError s "httpGet" url e, Except.error e)
    | Except.ok resp =>
      let obs := toObservation "httpGet" label url "GET" none resp
      let s := addObservation s obs
      let s := addCandidatesFromContent s resp.links
      (s, Except.ok obs)

/-- measureTiming from src/tools.js: metrics are incremented by 2 up front,
then the control request and the test request are issued sequentially; a
transport failure on either records the error and rethrows; timing values in
the note are abstracted. -/
def measureTiming (s : AgentState) (path label : String)
    (http1 http2 : Except String HttpResp) : AgentState × Except String Observation :=
  if s.metrics.requests ≥ MAX_REQ_PER_RUN then
    (s, Except.error budgetErrorMessage)
  else
    let s := incrementMetrics s "measureTiming" 2
    let url := buildUrl path
    match http1 with
    | Except.error e => (recordError s "measureTiming" url e, Except.error e)
    | Except.ok _ =>
      match http2 with
      | Except.error e => (recordError s "measureTiming" url e, Except.error e)
      | Except.ok resp =>
        let obs := toObservation "measureTiming" label url "POST" (some "timing") resp
        (addObservation s obs, Except.ok obs)

/-- The catch block of dispatchTool in src/graph.js: pushes an error entry
naming the dispatched tool and the requested args.path. -/
def pushDispatchError (s : AgentState) (toolName argsPath msg : String) : AgentState :=
  { s with metrics :=
      { s.metrics with errors := s.metrics.errors ++ [⟨toolName, argsPath, msg⟩] } }

/-- The http_get case of dispatchTool in src/graph.js: choose the path, mark
visited and record the hit before issuing, then run httpGet; on success update
pathStats and lastAction; a thrown error is caught, recorded, and reported as
`false`. -/
def dispatchHttpGet (s : AgentState) (argsPath : String)
    (http : Except String HttpResp) : Bool × AgentState :=
  match choosePath s "http_get" (some argsPath) with
  | (none, rest) => (false, { s with candidates := rest })
  | (some p, rest) =>
    let s := { s with candidates := rest }
    let s := markVisited s p
    let s := recordHit s p
    match httpGet s p "httpGet" http with
    | (s, Except.error e) => (false, pushDispatchError s "http_get" argsPath e)
    | (s, Except.ok obs) =>
      let s := updatePathStats s p (some obs.status) (some "http_get") (some obs.id)
      (true, { s with lastAction := some ("http_get", p) })

/-- The measure_timing case of dispatchTool in src/graph.js. -/
def dispatchMeasureTiming (s : AgentState) (argsPath : String)
    (http1 http2 : Except String HttpResp) : Bool × AgentState :=
  match choosePath s "measure_timing" (some argsPath) with
  | (none, rest) => (false, { s with candidates := rest })
  | (some p, rest) =>
    let s := { s with candidates := rest }
    let s := markVisited s p
    let s := recordHit s p
    match measureTiming s p "measureTiming" http1 http2 with
    | (s, Except.error e) => (false, pushDispatchError s "measure_timing" argsPath e)
    | (s, Except.ok obs) =>
      let s := updatePathStats s p (some obs.status) (some "measure_timing") (some obs.id)
      (true, { s with lastAction := some ("measure_timing", p) })

/-- probeNode from src/graph.js, specialised to an http_get action: dispatch,
then on success reset consecutiveSkips and track tool usage, on failure bump
the skip counters; hops always advances. -/
def probeStepHttpGet (s : AgentState) (argsPath : String)
    (http : Except String HttpResp) : AgentState :=
  match dispatchHttpGet s argsPath http with
  | (true, s₁) =>
    { s₁ with toolUsage := trackToolUsage s₁.toolUsage "http_get",
              consecutiveSkips := 0, hops := s₁.hops + 1 }
  | (false, s₁) =>
    { s₁ with skippedHops := s₁.skippedHops + 1,
              consecutiveSkips := s₁.consecutiveSkips + 1, hops := s₁.hops + 1 }

/-- shouldForceTool from src/graph.js: below DIVERSITY_INTERVAL hops nothing
is forced; a diversity tool with zero usage is forced first (list order); at
multiples of DIVERSITY_INTERVAL the least-used diversity tool (reduce with ≤,
ties keep the earlier tool) is forced when its count is below
hops / DIVERSITY_INTERVAL. -/
def shouldForceTool (s : AgentState) : Option String :=
  if s.hops < DIVERSITY_INTERVAL then none
  else
    match REQUIRED_DIVERSITY_TOOLS.find? (fun t => getCount s.toolUsage t = 0) with
    | some t => some t
    | none =>
      if s.hops % DIVERSITY_INTERVAL = 0 then
        match REQUIRED_DIVERSITY_TOOLS with
        | [] => none
        | t :: ts =>
          let leastUsed := ts.foldl
            (fun a b => if getCount s.toolUsage a ≤ getCount s.toolUsage b then a else b) t
          if getCount s.toolUsage leastUsed < s.hops / DIVERSITY_INTERVAL then
            some leastUsed
          else none
      else none

/-- The action-staging tail of cortexNode in src/graph.js: a forced diversity
tool overrides the Cortex choice and probes the root path; otherwise the
Cortex tool and path apply, with the `?? http_get` and `?? /` defaults. -/
def cortexNodeNext (s : AgentState) (cortexTool cortexPath : Option String) :
    String × String :=
  match shouldForceTool s with
  | some t => (t, "/")
  | none => (cortexTool.getD "http_get", cortexPath.getD "/")

/-- decisionRouter from src/graph.js: the four stop conditions in source
order, each setting its stopReason, else route to probe. -/
def decisionRouter (s : AgentState) : String × AgentState :=
  if s.hops ≥ MAX_HOPS then
    ("report", { s with stopReason := some "max_hops" })
  else if s.metrics.requests ≥ MAX_REQ_PER_RUN then
    ("report", { s with stopReason := some "budget_exhausted" })
  else if s.consecutiveSkips ≥ 3 then
    ("report", { s with stopReason := some "no_valid_paths" })
  else if s.decision = "report" then
    ("report", { s with stopReason := some "decision_report" })
  else
    ("probe", s)

/-- Id of the most recent observation, the `state.observations.at(-1)?.id`
idiom of src/cortex.js. -/
def latestObservationId (s : AgentState) : Option String :=
  s.observations.getLast?.map Observation.id

/-- A schema-valid parsed LLM response (the output of validateCortexResponse
in src/cortex.js); next_args is narrowed to its path component. -/
structure CortexParsed where
  decision : String
  next_tool : Option String
  next_path : Option String
  thought : String
  hypothesis : String
  owasp_category : String
  confidence_0_1 : Rat
  observation_ref : Option String
  deriving DecidableEq

/-- Result shape returned by runCortex in src/cortex.js. -/
structure CortexResult where
  decision : String
  next_tool : Option String
  next_path : Option String
  log : ReasoningEntry
  llmMeta : LlmMeta
  deriving DecidableEq

/-- The `attempts` constant of runCortex in src/cortex.js. -/
def CORTEX_ATTEMPTS : Nat := 2

/-- stubDecision from src/cortex.js: deterministic fallback when no API key
is configured. -/
def stubDecision (s : AgentState) : CortexResult :=
  { decision := "report"
    next_tool := none
    next_path := none
    log :=
      { thought := "Fallback decision without LLM key."
        hypothesis := "Collected basic surface info for review."
        owasp_category := some "A05:2021-Security Misconfiguration"
        confidence_0_1 := 3 / 10
        observation_ref := latestObservationId s }
    llmMeta :=
      { attempts := 0, usedFallback := true, model := none, error := none,
        reason := some "no_api_key" } }

/-- The success path of runCortex in src/cortex.js: normalize the parsed
response into the result record; llmMeta.attempts records the attempts
constant. -/
def cortexSuccess (s : AgentState) (p : CortexParsed) : CortexResult :=
  { decision := p.decision
    next_tool := p.next_tool
    next_path := p.next_path
    log :=
      { thought := p.thought
        hypothesis := p.hypothesis
        owasp_category := some p.owasp_category
        confidence_0_1 := p.confidence_0_1
        observation_ref := p.observation_ref <|> latestObservationId s }
    llmMeta :=
      { attempts := CORTEX_ATTEMPTS, usedFallback := false,
        model := some "gpt-4o-mini", error := none, reason := none } }

/-- The exhaustion path of runCortex in src/cortex.js: fallback ReasoningEntry
with confidence 0.2 and the misconfiguration OWASP tag, llmMeta recording the
attempts, the fallback flag and the last error message. -/
def cortexFallback (s : AgentState) (e : String) : CortexResult :=
  { decision := "report"
    next_tool := none
    next_path := none
    log :=
      { thought := "Fallback after LLM error: " ++ e
        hypothesis := "Use collected signals to report."
        owasp_category := some "A05:2021-Security Misconfiguration"
        confidence_0_1 := 1 / 5
        observation_ref := latestObservationId s }
    llmMeta :=
      { attempts := CORTEX_ATTEMPTS, usedFallback := true,
        model := some "gpt-4o-mini", error := some e, reason := none } }

/-- runCortex from src/cortex.js with the LLM embedded as an oracle indexed by
attempt number: `Except.error` is a parse/validation/provider failure carrying
the error message. Returns the result together with the number of LLM
invocations performed. An unset or empty OPENAI_API_KEY selects the stub. -/
def runCortex (apiKey : Option String) (oracle : Nat → Except String CortexParsed)
    (s : AgentState) : CortexResult × Nat :=
  if apiKey.getD "" = "" then (stubDecision s, 0)
  else
    match oracle 0 with
    | Except.ok p => (cortexSuccess s p, 1)
    | Except.error _ =>
      match oracle 1 with
      | Except.ok p => (cortexSuccess s p, 2)
      | Except.error e => (cortexFallback s e, 2)

/-- Pathname of an absolute http(s) URL, embedding `new URL(url).pathname` as
used by extractFindings in src/reporter.js; a string that is not an absolute
http(s) URL is returned unchanged. -/
def pathnameOf (url : String) : String :=
  let cs := url.toList
  if charsLeadWith "http://".toList cs || charsLeadWith "https://".toList cs then
    let rest := if charsLeadWith "http://".toList cs then cs.drop 7 else cs.drop 8
    let tail := rest.dropWhile (fun c => c != '/')
    let path := tail.takeWhile (fun c => c != '?' && c != '#')
    if path = [] then "/" else String.mk path
  else url

/-- Lookup in the lowercased header map of an observation. -/
def headerGet : List (String × String) → String → Option String
  | [], _ => none
  | (k, v) :: rest, key => if k = key then some v else headerGet rest key

/-- JS truthiness of `headers[key]`: present and nonempty. -/
def headerTruthy (hs : List (String × String)) (key : String) : Bool :=
  match headerGet hs key with
  | none => false
  | some v => v != ""

/-- Finding record emitted by extractFindings in src/reporter.js. -/
structure Finding where
  type : String
  subtype : String
  severity : String
  path : String
  evidence : String
  owasp : String
  observationId : String
  deriving DecidableEq

/-- The dedup key of a finding, as constructed by extractFindings in
src/reporter.js for each of its six rules. -/
def dedupKeyOf (f : Finding) : String :=
  if f.subtype = "stack_trace" then "stack_trace:" ++ f.path
  else if f.subtype = "cors_wildcard" then "cors_wildcard"
  else if f.subtype = "missing_hsts" then "missing_hsts"
  else if f.subtype = "missing_csp" then "missing_csp"
  else if f.subtype = "auth_error_details" then "auth_disclosure:" ++ f.path
  else "server_disclosure"

/-- The six keyed finding rules of extractFindings in src/reporter.js applied
to one observation, in source order; each element pairs the dedup key with the
finding pushed when that key is unseen. -/
def obsFindingCandidates (o : Observation) : List (String × Finding) :=
  let pn := pathnameOf o.url
  (if decide (500 ≤ o.status) && containsSubstring o.bodySnippet.toList "\"stack\"".toList then
    [("stack_trace:" ++ pn,
      { type := "information_disclosure", subtype := "stack_trace",
        severity := "medium", path := pn,
        evidence := "Server returned stack trace in error response",
        owasp := "A05:2021-Security Misconfiguration", observationId := o.id })]
   else []) ++
  (if headerGet o.headers "access-control-allow-origin" = some "*" then
    [("cors_wildcard",
      { type := "security_misconfiguration", subtype := "cors_wildcard",
        severity := "low", path := pn,
        evidence := "Access-Control-Allow-Origin: *",
        owasp := "A05:2021-Security Misconfiguration", observationId := o.id })]
   else []) ++
  (if !(headerTruthy o.headers "strict-transport-security") then
    [("missing_hsts",
      { type := "security_misconfiguration", subtype := "missing_hsts",
        severity := "low", path := pn,
        evidence := "No Strict-Transport-Security header",
        owasp := "A05:2021-Security Misconfiguration", observationId := o.id })]
   else []) ++
  (if !(headerTruthy o.headers "content-security-policy") then
    [("missing_csp",
      { type := "security_misconfiguration", subtype := "missing_csp",
        severity := "low", path := pn,
        evidence := "No Content-Security-Policy header",
        owasp := "A05:2021-Security Misconfiguration", observationId := o.id })]
   else []) ++
  (if decide (o.status = 401) && containsSubstring o.bodySnippet.toList "UnauthorizedError".toList then
    [("auth_disclosure:" ++ pn,
      { type := "information_disclosure", subtype := "auth_error_details",
        severity := "low", path := pn,
        evidence := "Detailed auth error structure exposed",
        owasp := "A01:2021-Broken Access Control", observationId := o.id })]
   else []) ++
  (if headerTruthy o.headers "server" || headerTruthy o.headers "x-powered-by" then
    [("server_disclosure",
      { type := "information_disclosure", subtype := "server_banner",
        severity := "info", path := pn,
        evidence := "Server: " ++ ((headerGet o.headers "server").getD "") ++
          ", X-Powered-By: " ++ ((headerGet o.headers "x-powered-by").getD ""),
        owasp := "A05:2021-Security Misconfiguration", observationId := o.id })]
   else [])

/-- The single-pass dedup of extractFindings in src/reporter.js: the `seen`
set threads through the whole observation sequence, a candidate whose key was
already seen is skipped, otherwise it is emitted and its key recorded. -/
def dedupFoldP : List (String × Finding) → List String → List (String × Finding)
  | [], _ => []
  | (k, f) :: rest, seen =>
    if seen.contains k then dedupFoldP rest seen
    else (k, f) :: dedupFoldP rest (k :: seen)

/-- extractFindings from src/reporter.js, with the dedup keys kept alongside
the emitted findings. -/
def extractFindingsK (s : AgentState) : List (String × Finding) :=
  dedupFoldP ((s.observations.map obsFindingCandidates).flatten) []

/-- extractFindings from src/reporter.js. -/
def extractFindings (s : AgentState) : List Finding :=
  (extractFindingsK s).map Prod.snd

/-- The descending-count ordering used by summarizeOwaspCategories in
src/reporter.js (comparator `(a, b) => b[1] - a[1]`). -/
def countGE (a b : String × Nat) : Prop := b.2 ≤ a.2

instance : DecidableRel countGE :=
  fun a b => inferInstanceAs (Decidable (b.2 ≤ a.2))

instance : IsTotal (String × Nat) countGE :=
  ⟨fun a b => le_total b.2 a.2⟩

instance : IsTrans (String × Nat) countGE :=
  ⟨fun _ _ _ hab hbc => le_trans hbc hab⟩

/-- The per-category tally of summarizeOwaspCategories in src/reporter.js:
`counts[cat] = (counts[cat] ?? 0) + 1` over the reasoning log in order, with
the `?? "Unknown"` default. -/
def owaspCounts (log : List ReasoningEntry) : List (String × Nat) :=
  log.foldl (fun acc e => bumpCount acc (e.owasp_category.getD "Unknown") 1) []

/-- summarizeOwaspCategories from src/reporter.js: tally then sort by
descending count. -/
def summarizeOwaspCategories (log : List ReasoningEntry) : List (String × Nat) :=
  List.insertionSort countGE (owaspCounts log)

/-- The summary object of the trace payload in writeTrace, src/reporter.js. -/
structure TraceSummary where
  findingsCount : Nat
  owaspCategories : List (String × Nat)
  toolUsage : List (String × Nat)
  skippedHops : Nat
  deriving DecidableEq

/-- The trace payload written by writeTrace in src/reporter.js;
requestBudget.used and requestBudget.max are flattened into two fields. -/
structure TracePayload where
  run_id : String
  target : String
  startedAt : String
  finishedAt : String
  summary : TraceSummary
  findings : List Finding
  observations : List Observation
  reasoningLog : List ReasoningEntry
  metrics : Metrics
  llmMeta : Option LlmMeta
  decisions : List DecisionEntry
  hops : Nat
  stopReason : Option String
  visitedPaths : List String
  requestBudgetUsed : Nat
  requestBudgetMax : Nat
  nodesVisited : List String
  deriving DecidableEq

/-- writeTrace from src/reporter.js (file I/O aside): the payload object built
at lines 153-178; finishedAt and the target URL come from the environment. -/
def writeTrace (s : AgentState) (finishedAt target : String) : TracePayload :=
  { run_id := s.runId
    target := target
    startedAt := s.runStartedAt
    finishedAt := finishedAt
    summary :=
      { findingsCount := (extractFindings s).length
        owaspCategories := summarizeOwaspCategories s.reasoningLog
        toolUsage := s.toolUsage
        skippedHops := s.skippedHops }
    findings := extractFindings s
    observations := s.observations
    reasoningLog := s.reasoningLog
    metrics := s.metrics
    llmMeta := s.llmMeta
    decisions := s.decisions
    hops := s.hops
    stopReason := s.stopReason
    visitedPaths := s.visitedPaths
    requestBudgetUsed := s.metrics.requests
    requestBudgetMax := MAX_REQ_PER_RUN
    nodesVisited := ["probe", "cortex", "report"] }

/-- The JSON keys of the `summary` object literal in writeTrace,
src/reporter.js lines 158-163, in source order. -/
def summaryJsonKeys : List String :=
  ["findingsCount", "owaspCategories", "toolUsage", "skippedHops"]

/-- The top-level JSON keys of the payload object literal in writeTrace,
src/reporter.js lines 153-178, in source order. -/
def payloadJsonKeys : List String :=
  ["run_id", "target", "startedAt", "finishedAt", "summary", "findings",
   "observations", "reasoningLog", "metrics", "llmMeta", "decisions", "hops",
   "stopReason", "visitedPaths", "requestBudget", "nodesVisited"]

/-- The JSON keys of the requestBudget object literal in writeTrace. -/
def requestBudgetJsonKeys : List String := ["used", "max"]

/-- C1 counterexample state: a fresh run state. -/
def freshState : AgentState := createInitialState "run" "t0"

/-- Concrete state at the hop cap whose decision is also report, exercising
the priority of the router conditions. -/
def routerStopState : AgentState :=
  { freshState with hops := 40, decision := "report" }

/-- Concrete state whose only candidate is already visited: every candidate is
ineligible. -/
def drainedState : AgentState :=
  { freshState with candidates := ["/a"], visitedPaths := ["/a"] }

/-- Boolean form of the per-path hit-cap invariant of spec section 3. -/
def pathHitsOK (s : AgentState) : Bool :=
  s.pathHits.all (fun e => decide (e.2 ≤ MAX_HITS_PER_PATH))

section Lemmas

lemma band_true_iff {a b : Bool} : (a && b) = true ↔ a = true ∧ b = true := by
  simp

lemma getCount_bumpCount_self (l : List (String × Nat)) (k : String) (n : Nat) :
    getCount (bumpCount l k n) k = getCount l k + n := by
  induction l with
  | nil => simp [bumpCount, getCount]
  | cons e rest ih =>
    obtain ⟨k', v⟩ := e
    by_cases h : k' = k
    · subst h
      simp [bumpCount, getCount]
    · simp [bumpCount, getCount, h, ih]

lemma all_bumpCount (l : List (String × Nat)) (k : String) (M : Nat)
    (hall : l.all (fun e => decide (e.2 ≤ M)) = true)
    (hlt : getCount l k < M) :
    (bumpCount l k 1).all (fun e => decide (e.2 ≤ M)) = true := by
  induction l with
  | nil =>
    simp only [getCount] at hlt
    simp only [bumpCount, List.all_cons, List.all_nil, Bool.and_true,
      decide_eq_true_eq]
    omega
  | cons e rest ih =>
    obtain ⟨k', v⟩ := e
    simp only [List.all_cons, Bool.and_eq_true, decide_eq_true_eq] at hall
    by_cases h : k' = k
    · have hv : v < M := by simpa [getCount, h] using hlt
      have hb : bumpCount ((k', v) :: rest) k 1 = (k', v + 1) :: rest := by
        simp [bumpCount, h]
      rw [hb]
      simp only [List.all_cons, Bool.and_eq_true, decide_eq_true_eq]
      exact ⟨by omega, hall.2⟩
    · have hrest : getCount rest k < M := by simpa [getCount, h] using hlt
      have hb : bumpCount ((k', v) :: rest) k 1 = (k', v) :: bumpCount rest k 1 := by
        simp [bumpCount, h]
      rw [hb]
      simp only [List.all_cons, Bool.and_eq_true, decide_eq_true_eq]
      exact ⟨hall.1, ih hall.2 hrest⟩

lemma candidateEligible_canHit {s : AgentState} {p : String}
    (h : candidateEligible s p = true) : canHit s p = true := by
  unfold candidateEligible at h
  rw [band_true_iff, band_true_iff] at h
  exact h.1.2

lemma findApiCandidate_eligible {s : AgentState} :
    ∀ {l : List String} {p : String} {rest : List String},
      findApiCandidate s l = some (p, rest) → candidateEligible s p = true := by
  intro l
  induction l with
  | nil => intro p rest h; simp [findApiCandidate] at h
  | cons q qs ih =>
    intro p rest h
    by_cases hq : (candidateEligible s q && isApiOrAuthPath q) = true
    · simp only [findApiCandidate, if_pos hq, Option.some.injEq, Prod.mk.injEq] at h
      rcases h with ⟨rfl, -⟩
      exact (band_true_iff.mp hq).1
    · simp only [findApiCandidate, if_neg hq] at h
      rcases hr : findApiCandidate s qs with - | pr
      · rw [hr] at h; simp at h
      · obtain ⟨p', rest'⟩ := pr
        rw [hr] at h
        simp only [Option.some.injEq, Prod.mk.injEq] at h
        rcases h with ⟨rfl, -⟩
        exact ih hr

lemma fifoConsume_some_eligible {s : AgentState} :
    ∀ {l : List String} {p : String} {rest : List String},
      fifoConsume s l = (some p, rest) → candidateEligible s p = true := by
  intro l
  induction l with
  | nil => intro p rest h; simp [fifoConsume] at h
  | cons q qs ih =>
    intro p rest h
    by_cases hq : candidateEligible s q = true
    · simp only [fifoConsume, if_pos hq, Prod.mk.injEq, Option.some.injEq] at h
      rcases h with ⟨rfl, -⟩
      exact hq
    · simp only [fifoConsume, if_neg hq] at h
      exact ih h

lemma consumeCandidate_some_eligible {s : AgentState} {cands : List String}
    {pa : Bool} {p : String} {rest : List String}
    (h : consumeCandidate s cands pa = (some p, rest)) :
    candidateEligible s p = true := by
  unfold consumeCandidate at h
  rcases pa with - | -
  · simp only [Bool.false_eq_true, if_false] at h
    exact fifoConsume_some_eligible h
  · simp only [if_pos rfl] at h
    rcases hf : findApiCandidate s cands with - | pr
    · rw [hf] at h
      exact fifoConsume_some_eligible h
    · obtain ⟨q, qrest⟩ := pr
      rw [hf] at h
      simp only [Prod.mk.injEq, Option.some.injEq] at h
      rcases h with ⟨rfl, -⟩
      exact findApiCandidate_eligible hf

lemma choosePath_some_canHit {s : AgentState} {t : String} {d : Option String}
    {p : String} {rest : List String}
    (h : choosePath s t d = (some p, rest)) : canHit s p = true := by
  unfold choosePath at h
  rcases d with - | dd
  · rw [if_neg (by simp)] at h
    rcases h1 : consumeCandidate s s.candidates true with ⟨o1, r1⟩
    rw [h1] at h
    rcases o1 with - | p1
    · exact candidateEligible_canHit (consumeCandidate_some_eligible h)
    · simp only [Prod.mk.injEq, Option.some.injEq] at h
      rcases h with ⟨rfl, -⟩
      exact candidateEligible_canHit (consumeCandidate_some_eligible h1)
  · by_cases hok : (decide (dd ≠ "") && !(sameAsLast s t dd) && canHit s dd &&
        !(staticAndSeen s dd) && !(isStaticPath dd)) = true
    · rw [if_pos hok] at h
      simp only [Prod.mk.injEq, Option.some.injEq] at h
      rcases h with ⟨rfl, -⟩
      rw [band_true_iff, band_true_iff, band_true_iff] at hok
      exact hok.1.1.2
    · rw [if_neg hok] at h
      rcases h1 : consumeCandidate s s.candidates true with ⟨o1, r1⟩
      rw [h1] at h
      rcases o1 with - | p1
      · exact candidateEligible_canHit (consumeCandidate_some_eligible h)
      · simp only [Prod.mk.injEq, Option.some.injEq] at h
        rcases h with ⟨rfl, -⟩
        exact candidateEligible_canHit (consumeCandidate_some_eligible h1)

end Lemmas

/-- Claim C1 is refuted at the desired path `/app.js` on a fresh state: the
path is static but has never been hit, is not the lastAction, and is below its
hit budget, yet choosePath does not select it (src/graph.js line 192 also
requires the desired path to be non-static outright). -/
theorem choosePath_static_desired_counterexample :
    canHit freshState "/app.js" = true ∧
    getCount freshState.pathHits "/app.js" = 0 ∧
    freshState.lastAction = none ∧
    staticAndSeen freshState "/app.js" = false ∧
    (choosePath freshState "http_get" (some "/app.js")).1 ≠ some "/app.js" := by
  refine ⟨by decide, by decide, by decide, by decide, by decide⟩

/-- C1 (amended): choosePath uses the LLM-desired path exactly when it is
truthy, not a repeat of lastAction for the same tool, below its hit budget,
and not a static path at all (a never-hit static desired path is rejected and
selection falls through to the candidate queue, identically to a null desired
path). -/
theorem choosePath_desired_policy (s : AgentState) (toolName d : String) :
    (d ≠ "" → sameAsLast s toolName d = false → canHit s d = true →
      isStaticPath d = false →
      choosePath s toolName (some d) = (some d, s.candidates)) ∧
    ((d = "" ∨ sameAsLast s toolName d = true ∨ canHit s d = false ∨
        isStaticPath d = true) →
      choosePath s toolName (some d) = choosePath s toolName none) := by
  constructor
  · intro hne hsl hch hst
    have hsas : staticAndSeen s d = false := by
      simp [staticAndSeen, hst]
    simp [choosePath, hne, hsl, hch, hst, hsas]
  · intro hbad
    have hok : (decide (d ≠ "") && !(sameAsLast s toolName d) && canHit s d &&
        !(staticAndSeen s d) && !(isStaticPath d)) = false := by
      rcases hbad with h | h | h | h <;> simp [h]
    simp only [choosePath, hok]
    simp

/-- Witness for the amended C1 theorem at a concrete non-static desired
path. -/
theorem choosePath_desired_policy_witness :
    choosePath freshState "http_get" (some "/api/users") =
      (some "/api/users", freshState.candidates) :=
  (choosePath_desired_policy freshState "http_get" "/api/users").1
    (by decide) (by decide) (by decide) (by decide)

/-- C3: decisionRouter evaluates its stop conditions in the fixed source
order, max_hops before budget_exhausted before no_valid_paths before
decision_report, returning probe when none holds; an earlier true condition
determines the stopReason regardless of later ones. -/
theorem decisionRouter_order (s : AgentState) :
    (MAX_HOPS ≤ s.hops →
      decisionRouter s = ("report", { s with stopReason := some "max_hops" })) ∧
    (s.hops < MAX_HOPS → MAX_REQ_PER_RUN ≤ s.metrics.requests →
      decisionRouter s = ("report", { s with stopReason := some "budget_exhausted" })) ∧
    (s.hops < MAX_HOPS → s.metrics.requests < MAX_REQ_PER_RUN →
      3 ≤ s.consecutiveSkips →
      decisionRouter s = ("report", { s with stopReason := some "no_valid_paths" })) ∧
    (s.hops < MAX_HOPS → s.metrics.requests < MAX_REQ_PER_RUN →
      s.consecutiveSkips < 3 → s.decision = "report" →
      decisionRouter s = ("report", { s with stopReason := some "decision_report" })) ∧
    (s.hops < MAX_HOPS → s.metrics.requests < MAX_REQ_PER_RUN →
      s.consecutiveSkips < 3 → s.decision ≠ "report" →
      decisionRouter s = ("probe", s)) := by
  refine ⟨?_, ?_, ?_, ?_, ?_⟩
  · intro h1
    simp [decisionRouter, h1]
  · intro h1 h2
    simp [decisionRouter, h2, Nat.not_le_of_lt h1]
  · intro h1 h2 h3
    simp [decisionRouter, h3, Nat.not_le_of_lt h1, Nat.not_le_of_lt h2]
  · intro h1 h2 h3 h4
    simp [decisionRouter, h4, Nat.not_le_of_lt h1, Nat.not_le_of_lt h2,
      Nat.not_le_of_lt h3]
  · intro h1 h2 h3 h4
    simp [decisionRouter, h4, Nat.not_le_of_lt h1, Nat.not_le_of_lt h2,
      Nat.not_le_of_lt h3]

/-- Witness for the router theorem: a state at the hop cap stops with
max_hops even though its decision is also report. -/
theorem decisionRouter_order_witness :
    decisionRouter routerStopState =
      ("report", { routerStopState with stopReason := some "max_hops" }) :=
  (decisionRouter_order routerStopState).1 (by decide)

section StateOpLemmas

lemma canHit_true_iff {s : AgentState} {p : String} :
    canHit s p = true ↔ p ≠ "" ∧ getCount s.pathHits p < MAX_HITS_PER_PATH := by
  unfold canHit
  by_cases h : p = "" <;> simp [h]

lemma markVisited_pathHits (s : AgentState) (p : String) :
    (markVisited s p).pathHits = s.pathHits := by
  unfold markVisited
  split
  · rfl
  · split <;> rfl

lemma markVisited_metrics (s : AgentState) (p : String) :
    (markVisited s p).metrics = s.metrics := by
  unfold markVisited
  split
  · rfl
  · split <;> rfl

lemma markVisited_observations (s : AgentState) (p : String) :
    (markVisited s p).observations = s.observations := by
  unfold markVisited
  split
  · rfl
  · split <;> rfl

lemma markVisited_stopReason (s : AgentState) (p : String) :
    (markVisited s p).stopReason = s.stopReason := by
  unfold markVisited
  split
  · rfl
  · split <;> rfl

lemma markVisited_mem (s : AgentState) {p : String} (h : p ≠ "") :
    p ∈ (markVisited s p).visitedPaths := by
  unfold markVisited
  rw [if_neg h]
  split
  · next hc => exact List.elem_iff.mp hc
  · simp

lemma markVisited_mem_mono (s : AgentState) (p q : String)
    (h : q ∈ s.visitedPaths) : q ∈ (markVisited s p).visitedPaths := by
  unfold markVisited
  split
  · exact h
  · split
    · exact h
    · simp [h]

lemma markVisited_hops (s : AgentState) (p : String) :
    (markVisited s p).hops = s.hops := by
  unfold markVisited
  split
  · rfl
  · split <;> rfl

lemma markVisited_skips (s : AgentState) (p : String) :
    (markVisited s p).consecutiveSkips = s.consecutiveSkips := by
  unfold markVisited
  split
  · rfl
  · split <;> rfl

lemma recordHit_hops (s : AgentState) (p : String) :
    (recordHit s p).hops = s.hops := by
  unfold recordHit
  split <;> rfl

lemma recordHit_skips (s : AgentState) (p : String) :
    (recordHit s p).consecutiveSkips = s.consecutiveSkips := by
  unfold recordHit
  split <;> rfl

lemma recordHit_pathHits_of_ne {s : AgentState} {p : String} (h : p ≠ "") :
    (recordHit s p).pathHits = bumpCount s.pathHits p 1 := by
  simp [recordHit, h]

lemma recordHit_visitedPaths (s : AgentState) (p : String) :
    (recordHit s p).visitedPaths = s.visitedPaths := by
  unfold recordHit
  split <;> rfl

lemma recordHit_metrics (s : AgentState) (p : String) :
    (recordHit s p).metrics = s.metrics := by
  unfold recordHit
  split <;> rfl

lemma recordHit_observations (s : AgentState) (p : String) :
    (recordHit s p).observations = s.observations := by
  unfold recordHit
  split <;> rfl

lemma recordHit_stopReason (s : AgentState) (p : String) :
    (recordHit s p).stopReason = s.stopReason := by
  unfold recordHit
  split <;> rfl

lemma addCandidate_pathHits (s : AgentState) (p : String) :
    (addCandidate s p).pathHits = s.pathHits := by
  unfold addCandidate
  split
  · rfl
  · split
    · rfl
    · split <;> rfl

lemma addCandidate_visitedPaths (s : AgentState) (p : String) :
    (addCandidate s p).visitedPaths = s.visitedPaths := by
  unfold addCandidate
  split
  · rfl
  · split
    · rfl
    · split <;> rfl

lemma addCandidate_metrics (s : AgentState) (p : String) :
    (addCandidate s p).metrics = s.metrics := by
  unfold addCandidate
  split
  · rfl
  · split
    · rfl
    · split <;> rfl

lemma addCandidate_observations (s : AgentState) (p : String) :
    (addCandidate s p).observations = s.observations := by
  unfold addCandidate
  split
  · rfl
  · split
    · rfl
    · split <;> rfl

lemma addCandidate_stopReason (s : AgentState) (p : String) :
    (addCandidate s p).stopReason = s.stopReason := by
  unfold addCandidate
  split
  · rfl
  · split
    · rfl
    · split <;> rfl

lemma addCandidatesFromContent_pathHits :
    ∀ (links : List String) (s : AgentState),
      (addCandidatesFromContent s links).pathHits = s.pathHits := by
  intro links
  induction links with
  | nil => intro s; rfl
  | cons l ls ih =>
    intro s
    unfold addCandidatesFromContent at ih ⊢
    simp only [List.foldl_cons]
    rw [ih]
    split
    · rfl
    · exact addCandidate_pathHits s l

lemma addCandidatesFromContent_visitedPaths :
    ∀ (links : List String) (s : AgentState),
      (addCandidatesFromContent s links).visitedPaths = s.visitedPaths := by
  intro links
  induction links with
  | nil => intro s; rfl
  | cons l ls ih =>
    intro s
    unfold addCandidatesFromContent at ih ⊢
    simp only [List.foldl_cons]
    rw [ih]
    split
    · rfl
    · exact addCandidate_visitedPaths s l

lemma addCandidatesFromContent_metrics :
    ∀ (links : List String) (s : AgentState),
      (addCandidatesFromContent s links).metrics = s.metrics := by
  intro links
  induction links with
  | nil => intro s; rfl
  | cons l ls ih =>
    intro s
    unfold addCandidatesFromContent at ih ⊢
    simp only [List.foldl_cons]
    rw [ih]
    split
    · rfl
    · exact addCandidate_metrics s l

lemma addCandidatesFromContent_observations :
    ∀ (links : List String) (s : AgentState),
      (addCandidatesFromContent s links).observations = s.observations := by
  intro links
  induction links with
  | nil => intro s; rfl
  | cons l ls ih =>
    intro s
    unfold addCandidatesFromContent at ih ⊢
    simp only [List.foldl_cons]
    rw [ih]
    split
    · rfl
    · exact addCandidate_observations s l

lemma addCandidatesFromContent_stopReason :
    ∀ (links : List String) (s : AgentState),
      (addCandidatesFromContent s links).stopReason = s.stopReason := by
  intro links
  induction links with
  | nil => intro s; rfl
  | cons l ls ih =>
    intro s
    unfold addCandidatesFromContent at ih ⊢
    simp only [List.foldl_cons]
    rw [ih]
    split
    · rfl
    · exact addCandidate_stopReason s l

lemma updatePathStats_pathHits (s : AgentState) (p : String) (st : Option Nat)
    (t : Option String) (oid : Option String) :
    (updatePathStats s p st t oid).pathHits = s.pathHits := by
  unfold updatePathStats
  split <;> rfl

lemma updatePathStats_visitedPaths (s : AgentState) (p : String) (st : Option Nat)
    (t : Option String) (oid : Option String) :
    (updatePathStats s p st t oid).visitedPaths = s.visitedPaths := by
  unfold updatePathStats
  split <;> rfl

lemma updatePathStats_metrics (s : AgentState) (p : String) (st : Option Nat)
    (t : Option String) (oid : Option String) :
    (updatePathStats s p st t oid).metrics = s.metrics := by
  unfold updatePathStats
  split <;> rfl

lemma updatePathStats_observations (s : AgentState) (p : String) (st : Option Nat)
    (t : Option String) (oid : Option String) :
    (updatePathStats s p st t oid).observations = s.observations := by
  unfold updatePathStats
  split <;> rfl

lemma updatePathStats_stopReason (s : AgentState) (p : String) (st : Option Nat)
    (t : Option String) (oid : Option String) :
    (updatePathStats s p st t oid).stopReason = s.stopReason := by
  unfold updatePathStats
  split <;> rfl

lemma httpGet_pathHits (s : AgentState) (p l : String) (h : Except String HttpResp) :
    (httpGet s p l h).1.pathHits = s.pathHits := by
  unfold httpGet
  split
  · rfl
  · cases h with
    | error e => simp [incrementMetrics, recordError]
    | ok r =>
      simp only
      rw [addCandidatesFromContent_pathHits]
      simp [addObservation, incrementMetrics]

lemma httpGet_visitedPaths (s : AgentState) (p l : String) (h : Except String HttpResp) :
    (httpGet s p l h).1.visitedPaths = s.visitedPaths := by
  unfold httpGet
  split
  · rfl
  · cases h with
    | error e => simp [incrementMetrics, recordError]
    | ok r =>
      simp only
      rw [addCandidatesFromContent_visitedPaths]
      simp [addObservation, incrementMetrics]

lemma httpGet_stopReason (s : AgentState) (p l : String) (h : Except String HttpResp) :
    (httpGet s p l h).1.stopReason = s.stopReason := by
  unfold httpGet
  split
  · rfl
  · cases h with
    | error e => simp [incrementMetrics, recordError]
    | ok r =>
      simp only
      rw [addCandidatesFromContent_stopReason]
      simp [addObservation, incrementMetrics]

lemma measureTiming_pathHits (s : AgentState) (p l : String)
    (h1 h2 : Except String HttpResp) :
    (measureTiming s p l h1 h2).1.pathHits = s.pathHits := by
  unfold measureTiming
  split
  · rfl
  · cases h1 with
    | error e => simp [incrementMetrics, recordError]
    | ok r1 =>
      cases h2 with
      | error e => simp [incrementMetrics, recordError]
      | ok r2 => simp [incrementMetrics, addObservation]

lemma measureTiming_visitedPaths (s : AgentState) (p l : String)
    (h1 h2 : Except String HttpResp) :
    (measureTiming s p l h1 h2).1.visitedPaths = s.visitedPaths := by
  unfold measureTiming
  split
  · rfl
  · cases h1 with
    | error e => simp [incrementMetrics, recordError]
    | ok r1 =>
      cases h2 with
      | error e => simp [incrementMetrics, recordError]
      | ok r2 => simp [incrementMetrics, addObservation]

lemma pushDispatchError_pathHits (s : AgentState) (t p m : String) :
    (pushDispatchError s t p m).pathHits = s.pathHits := rfl

lemma pathHitsOK_of_pathHits_eq {s s' : AgentState} (h : s'.pathHits = s.pathHits) :
    pathHitsOK s' = pathHitsOK s := by
  simp [pathHitsOK, h]

lemma pathHitsOK_recordHit_choose {s : AgentState} {p : String}
    (hch : canHit s p = true) (hok : pathHitsOK s = true) (s' : AgentState)
    (hs' : s'.pathHits = bumpCount s.pathHits p 1) : pathHitsOK s' = true := by
  rcases canHit_true_iff.mp hch with ⟨-, hlt⟩
  unfold pathHitsOK
  rw [hs']
  exact all_bumpCount s.pathHits p MAX_HITS_PER_PATH hok hlt

end StateOpLemmas

/-- C4: every selected path passes the canHit gate, recordHit adds exactly one
hit, and therefore a dispatch (http_get or measure_timing, whatever the
transport outcome) preserves the per-path cap invariant
pathHits[p] ≤ MAX_HITS_PER_PATH. -/
theorem pathHits_never_exceed_cap (s : AgentState) (hok : pathHitsOK s = true) :
    (∀ toolName d p rest, choosePath s toolName d = (some p, rest) →
      canHit s p = true) ∧
    (∀ p, p ≠ "" →
      getCount (recordHit s p).pathHits p = getCount s.pathHits p + 1) ∧
    (∀ argsPath http, pathHitsOK (dispatchHttpGet s argsPath http).2 = true) ∧
    (∀ argsPath h1 h2,
      pathHitsOK (dispatchMeasureTiming s argsPath h1 h2).2 = true) := by
  refine ⟨?_, ?_, ?_, ?_⟩
  · intro toolName d p rest h
    exact choosePath_some_canHit h
  · intro p hp
    rw [recordHit_pathHits_of_ne hp, getCount_bumpCount_self]
  · intro argsPath http
    unfold dispatchHttpGet
    rcases hc : choosePath s "http_get" (some argsPath) with ⟨o, rest⟩
    rcases o with - | p
    · simpa [pathHitsOK] using hok
    · have hch : canHit s p = true := choosePath_some_canHit hc
      have hne : p ≠ "" := (canHit_true_iff.mp hch).1
      simp only
      rcases hg : httpGet (recordHit (markVisited { s with candidates := rest } p) p)
          p "httpGet" http with ⟨s', res⟩
      have hph : s'.pathHits = bumpCount s.pathHits p 1 := by
        have := httpGet_pathHits (recordHit (markVisited { s with candidates := rest } p) p)
          p "httpGet" http
        rw [hg] at this
        simp only at this
        rw [this, recordHit_pathHits_of_ne hne, markVisited_pathHits]
      rcases res with e | obs
      · simp only
        exact pathHitsOK_recordHit_choose hch hok _
          (by rw [pushDispatchError_pathHits]; exact hph)
      · simp only
        exact pathHitsOK_recordHit_choose hch hok _
          (by rw [updatePathStats_pathHits]; exact hph)
  · intro argsPath h1 h2
    unfold dispatchMeasureTiming
    rcases hc : choosePath s "measure_timing" (some argsPath) with ⟨o, rest⟩
    rcases o with - | p
    · simpa [pathHitsOK] using hok
    · have hch : canHit s p = true := choosePath_some_canHit hc
      have hne : p ≠ "" := (canHit_true_iff.mp hch).1
      simp only
      rcases hg : measureTiming (recordHit (markVisited { s with candidates := rest } p) p)
          p "measureTiming" h1 h2 with ⟨s', res⟩
      have hph : s'.pathHits = bumpCount s.pathHits p 1 := by
        have := measureTiming_pathHits
          (recordHit (markVisited { s with candidates := rest } p) p) p "measureTiming" h1 h2
        rw [hg] at this
        simp only at this
        rw [this, recordHit_pathHits_of_ne hne, markVisited_pathHits]
      rcases res with e | obs
      · simp only
        exact pathHitsOK_recordHit_choose hch hok _
          (by rw [pushDispatchError_pathHits]; exact hph)
      · simp only
        exact pathHitsOK_recordHit_choose hch hok _
          (by rw [updatePathStats_pathHits]; exact hph)

/-- Witness for the hit-cap theorem on a fresh state and a concrete
dispatch. -/
theorem pathHits_never_exceed_cap_witness :
    pathHitsOK freshState = true ∧
    pathHitsOK (dispatchHttpGet freshState "/api/x" (Except.error "timeout")).2 = true :=
  ⟨by decide,
   (pathHits_never_exceed_cap freshState (by decide)).2.2.1 "/api/x" (Except.error "timeout")⟩

/-- C5: below DIVERSITY_INTERVAL hops nothing is forced; from then on a
zero-usage diversity tool is forced (inspect_headers first), and at each
multiple of DIVERSITY_INTERVAL the least-used diversity tool is forced when
its count is below hops / DIVERSITY_INTERVAL; a forced tool overrides the
Cortex choice with path "/". -/
theorem diversity_enforcement (s : AgentState) :
    (s.hops < DIVERSITY_INTERVAL → shouldForceTool s = none ∧
      ∀ ct cp, cortexNodeNext s ct cp = (ct.getD "http_get", cp.getD "/")) ∧
    (DIVERSITY_INTERVAL ≤ s.hops → getCount s.toolUsage "inspect_headers" = 0 →
      shouldForceTool s = some "inspect_headers") ∧
    (DIVERSITY_INTERVAL ≤ s.hops → getCount s.toolUsage "inspect_headers" ≠ 0 →
      getCount s.toolUsage "provoke_error" = 0 →
      shouldForceTool s = some "provoke_error") ∧
    (DIVERSITY_INTERVAL ≤ s.hops → s.hops % DIVERSITY_INTERVAL = 0 →
      min (getCount s.toolUsage "inspect_headers")
          (getCount s.toolUsage "provoke_error") < s.hops / DIVERSITY_INTERVAL →
      shouldForceTool s =
        some (if getCount s.toolUsage "inspect_headers" ≤
            getCount s.toolUsage "provoke_error"
          then "inspect_headers" else "provoke_error")) ∧
    (∀ t ct cp, shouldForceTool s = some t → cortexNodeNext s ct cp = (t, "/")) := by
  refine ⟨?_, ?_, ?_, ?_, ?_⟩
  · intro h
    have hn : shouldForceTool s = none := by
      simp [shouldForceTool, h]
    exact ⟨hn, fun ct cp => by simp [cortexNodeNext, hn]⟩
  · intro h hih
    simp [shouldForceTool, Nat.not_lt.mpr h, REQUIRED_DIVERSITY_TOOLS,
      List.find?, hih]
  · intro h hih hpe
    simp [shouldForceTool, Nat.not_lt.mpr h, REQUIRED_DIVERSITY_TOOLS,
      List.find?, hih, hpe]
  · intro h hm hmin
    by_cases h0 : getCount s.toolUsage "inspect_headers" = 0
    · have : (0 : Nat) ≤ getCount s.toolUsage "provoke_error" := Nat.zero_le _
      simp [shouldForceTool, Nat.not_lt.mpr h, REQUIRED_DIVERSITY_TOOLS,
        List.find?, h0]
    · by_cases hp0 : getCount s.toolUsage "provoke_error" = 0
      · have hnle : ¬ (getCount s.toolUsage "inspect_headers" ≤
            getCount s.toolUsage "provoke_error") := by
          rw [hp0]
          simpa [Nat.le_zero] using h0
        simp [shouldForceTool, Nat.not_lt.mpr h, REQUIRED_DIVERSITY_TOOLS,
          List.find?, h0, hp0, hnle]
      · by_cases hle : getCount s.toolUsage "inspect_headers" ≤
            getCount s.toolUsage "provoke_error"
        · have hmin' : getCount s.toolUsage "inspect_headers" <
              s.hops / DIVERSITY_INTERVAL := by
            rwa [min_eq_left hle] at hmin
          simp [shouldForceTool, Nat.not_lt.mpr h, REQUIRED_DIVERSITY_TOOLS,
            List.find?, h0, hp0, hm, hle, hmin']
        · have hlt : getCount s.toolUsage "provoke_error" <
              getCount s.toolUsage "inspect_headers" := Nat.lt_of_not_le hle
          have hmin' : getCount s.toolUsage "provoke_error" <
              s.hops / DIVERSITY_INTERVAL := by
            rwa [min_eq_right (Nat.le_of_lt hlt)] at hmin
          simp [shouldForceTool, Nat.not_lt.mpr h, REQUIRED_DIVERSITY_TOOLS,
            List.find?, h0, hp0, hm, hle, hmin']
  · intro t ct cp h
    simp [cortexNodeNext, h]

/-- Witness for the diversity theorem: at hop 5 with untouched tool usage,
inspect_headers is forced with path "/". -/
theorem diversity_enforcement_witness :
    shouldForceTool { freshState with hops := 5 } = some "inspect_headers" ∧
    cortexNodeNext { freshState with hops := 5 } (some "http_get") (some "/x") =
      ("inspect_headers", "/") := by
  have h1 := (diversity_enforcement { freshState with hops := 5 }).2.1
    (by decide) (by decide)
  exact ⟨h1, (diversity_enforcement { freshState with hops := 5 }).2.2.2.2
    "inspect_headers" (some "http_get") (some "/x") h1⟩

section DispatchErrorLemmas

lemma preselect_metrics (s : AgentState) (p : String) (rest : List String) :
    (recordHit (markVisited { s with candidates := rest } p) p).metrics = s.metrics := by
  rw [recordHit_metrics, markVisited_metrics]

lemma preselect_observations (s : AgentState) (p : String) (rest : List String) :
    (recordHit (markVisited { s with candidates := rest } p) p).observations =
      s.observations := by
  rw [recordHit_observations, markVisited_observations]

lemma preselect_stopReason (s : AgentState) (p : String) (rest : List String) :
    (recordHit (markVisited { s with candidates := rest } p) p).stopReason =
      s.stopReason := by
  rw [recordHit_stopReason, markVisited_stopReason]

lemma preselect_pathHits (s : AgentState) {p : String} (rest : List String)
    (h : p ≠ "") :
    (recordHit (markVisited { s with candidates := rest } p) p).pathHits =
      bumpCount s.pathHits p 1 := by
  rw [recordHit_pathHits_of_ne h, markVisited_pathHits]

lemma preselect_visited (s : AgentState) {p : String} (rest : List String)
    (h : p ≠ "") :
    p ∈ (recordHit (markVisited { s with candidates := rest } p) p).visitedPaths := by
  rw [recordHit_visitedPaths]
  exact markVisited_mem _ h

lemma dispatchHttpGet_error_eq (s : AgentState) {argsPath p : String}
    {rest : List String}
    (hc : choosePath s "http_get" (some argsPath) = (some p, rest))
    (hb : s.metrics.requests < MAX_REQ_PER_RUN) (e : String) :
    dispatchHttpGet s argsPath (Except.error e) =
      (false,
        pushDispatchError
          (recordError
            (incrementMetrics
              (recordHit (markVisited { s with candidates := rest } p) p) "httpGet" 1)
            "httpGet" (buildUrl p) e)
          "http_get" argsPath e) := by
  unfold dispatchHttpGet
  rw [hc]
  simp only
  unfold httpGet
  rw [if_neg (by rw [preselect_metrics]; omega)]

lemma dispatchMeasureTiming_error_eq (s : AgentState) {argsPath p : String}
    {rest : List String}
    (hc : choosePath s "measure_timing" (some argsPath) = (some p, rest))
    (hb : s.metrics.requests < MAX_REQ_PER_RUN) (e : String)
    (h2 : Except String HttpResp) :
    dispatchMeasureTiming s argsPath (Except.error e) h2 =
      (false,
        pushDispatchError
          (recordError
            (incrementMetrics
              (recordHit (markVisited { s with candidates := rest } p) p)
              "measureTiming" 2)
            "measureTiming" (buildUrl p) e)
          "measure_timing" argsPath e) := by
  unfold dispatchMeasureTiming
  rw [hc]
  simp only
  unfold measureTiming
  rw [if_neg (by rw [preselect_metrics]; omega)]

end DispatchErrorLemmas

/-- C8: a transport-failed http_get dispatch records the error in
metrics.errors (once by the tool wrapper, once by the dispatch catch block),
appends no observation, returns false, and leaves stopReason untouched; the
probe step after such a failure merely advances the hop and skip counters, so
the run can only end through the router stop conditions. -/
theorem transport_error_semantics (s : AgentState) (argsPath p : String)
    (rest : List String) (e : String)
    (hc : choosePath s "http_get" (some argsPath) = (some p, rest))
    (hb : s.metrics.requests < MAX_REQ_PER_RUN) :
    (dispatchHttpGet s argsPath (Except.error e)).1 = false ∧
    (dispatchHttpGet s argsPath (Except.error e)).2.observations = s.observations ∧
    (dispatchHttpGet s argsPath (Except.error e)).2.metrics.errors =
      s.metrics.errors ++
        [⟨"httpGet", buildUrl p, e⟩, ⟨"http_get", argsPath, e⟩] ∧
    (dispatchHttpGet s argsPath (Except.error e)).2.stopReason = s.stopReason ∧
    (probeStepHttpGet s argsPath (Except.error e)).stopReason = s.stopReason ∧
    (probeStepHttpGet s argsPath (Except.error e)).hops = s.hops + 1 ∧
    (probeStepHttpGet s argsPath (Except.error e)).consecutiveSkips =
      s.consecutiveSkips + 1 := by
  have hd := dispatchHttpGet_error_eq s hc hb e
  refine ⟨by rw [hd], ?_, ?_, ?_, ?_, ?_, ?_⟩
  · rw [hd]
    simp only [pushDispatchError, recordError, incrementMetrics]
    exact preselect_observations s p rest
  · rw [hd]
    simp only [pushDispatchError, recordError, incrementMetrics,
      preselect_metrics]
    simp
  · rw [hd]
    simp only [pushDispatchError, recordError, incrementMetrics]
    exact preselect_stopReason s p rest
  · unfold probeStepHttpGet
    rw [hd]
    simp only [pushDispatchError, recordError, incrementMetrics]
    exact preselect_stopReason s p rest
  · unfold probeStepHttpGet
    rw [hd]
    simp only [pushDispatchError, recordError, incrementMetrics]
    rw [recordHit_hops, markVisited_hops]
  · unfold probeStepHttpGet
    rw [hd]
    simp only [pushDispatchError, recordError, incrementMetrics]
    rw [recordHit_skips, markVisited_skips]

/-- Witness for the transport-error theorem on a fresh state with one queued
candidate. -/
theorem transport_error_semantics_witness :
    (dispatchHttpGet { freshState with candidates := ["/api/x"] } "/api/x"
      (Except.error "timeout")).1 = false ∧
    (dispatchHttpGet { freshState with candidates := ["/api/x"] } "/api/x"
      (Except.error "timeout")).2.observations = [] :=
  ⟨(transport_error_semantics { freshState with candidates := ["/api/x"] }
      "/api/x" "/api/x" ["/api/x"] "timeout" (by decide) (by decide)).1,
   (transport_error_semantics { freshState with candidates := ["/api/x"] }
      "/api/x" "/api/x" ["/api/x"] "timeout" (by decide) (by decide)).2.1⟩

/-- C9: a transport-failed dispatch is not atomic on the state: the request
and per-tool counters are incremented before the request is issued (by 2 up
front for measure_timing, even when its first request fails), and the chosen
path is marked visited and its hit count incremented before the request, while
no observation is appended. -/
theorem transport_failure_consumes_budget (s : AgentState) (argsPath p : String)
    (rest : List String) (e : String)
    (hb : s.metrics.requests < MAX_REQ_PER_RUN) :
    (choosePath s "http_get" (some argsPath) = (some p, rest) →
      (dispatchHttpGet s argsPath (Except.error e)).2.metrics.requests =
        s.metrics.requests + 1 ∧
      getCount (dispatchHttpGet s argsPath (Except.error e)).2.metrics.perTool
          "httpGet" =
        getCount s.metrics.perTool "httpGet" + 1 ∧
      p ∈ (dispatchHttpGet s argsPath (Except.error e)).2.visitedPaths ∧
      getCount (dispatchHttpGet s argsPath (Except.error e)).2.pathHits p =
        getCount s.pathHits p + 1 ∧
      (dispatchHttpGet s argsPath (Except.error e)).2.observations =
        s.observations) ∧
    (∀ h2, choosePath s "measure_timing" (some argsPath) = (some p, rest) →
      (dispatchMeasureTiming s argsPath (Except.error e) h2).2.metrics.requests =
        s.metrics.requests + 2 ∧
      getCount (dispatchMeasureTiming s argsPath
          (Except.error e) h2).2.metrics.perTool "measureTiming" =
        getCount s.metrics.perTool "measureTiming" + 2 ∧
      (dispatchMeasureTiming s argsPath (Except.error e) h2).2.observations =
        s.observations) := by
  constructor
  · intro hc
    have hd := dispatchHttpGet_error_eq s hc hb e
    have hne : p ≠ "" := (canHit_true_iff.mp (choosePath_some_canHit hc)).1
    refine ⟨?_, ?_, ?_, ?_, ?_⟩
    · rw [hd]
      simp only [pushDispatchError, recordError, incrementMetrics,
        preselect_metrics]
    · rw [hd]
      simp only [pushDispatchError, recordError, incrementMetrics,
        preselect_metrics]
      exact getCount_bumpCount_self _ _ _
    · rw [hd]
      simp only [pushDispatchError, recordError, incrementMetrics]
      exact preselect_visited s rest hne
    · rw [hd]
      simp only [pushDispatchError, recordError, incrementMetrics]
      rw [preselect_pathHits s rest hne]
      exact getCount_bumpCount_self _ _ _
    · rw [hd]
      simp only [pushDispatchError, recordError, incrementMetrics]
      exact preselect_observations s p rest
  · intro h2 hc
    have hd := dispatchMeasureTiming_error_eq s hc hb e h2
    refine ⟨?_, ?_, ?_⟩
    · rw [hd]
      simp only [pushDispatchError, recordError, incrementMetrics,
        preselect_metrics]
    · rw [hd]
      simp only [pushDispatchError, recordError, incrementMetrics,
        preselect_metrics]
      exact getCount_bumpCount_self _ _ _
    · rw [hd]
      simp only [pushDispatchError, recordError, incrementMetrics]
      exact preselect_observations s p rest

/-- Witness for the budget-consumption theorem: the fresh state with a queued
candidate loses one request unit to a timed-out http_get. -/
theorem transport_failure_consumes_budget_witness :
    (dispatchHttpGet { freshState with candidates := ["/api/x"] } "/api/x"
      (Except.error "timeout")).2.metrics.requests =
      ({ freshState with candidates := ["/api/x"] } : AgentState).metrics.requests
        + 1 :=
  ((transport_failure_consumes_budget { freshState with candidates := ["/api/x"] }
      "/api/x" "/api/x" ["/api/x"] "timeout" (by decide)).1 (by decide)).1

section FrontierLemmas

lemma findApiCandidate_none_of_ineligible {s : AgentState} :
    ∀ {l : List String}, (∀ q ∈ l, candidateEligible s q = false) →
      findApiCandidate s l = none := by
  intro l
  induction l with
  | nil => intro _; rfl
  | cons q qs ih =>
    intro h
    have hq : candidateEligible s q = false := h q (List.mem_cons_self q qs)
    have hcond : (candidateEligible s q && isApiOrAuthPath q) = false := by
      simp [hq]
    simp only [findApiCandidate, hcond, Bool.false_eq_true, if_false]
    rw [ih (fun r hr => h r (List.mem_cons_of_mem q hr))]

lemma fifoConsume_drains_of_ineligible {s : AgentState} :
    ∀ {l : List String}, (∀ q ∈ l, candidateEligible s q = false) →
      fifoConsume s l = (none, []) := by
  intro l
  induction l with
  | nil => intro _; rfl
  | cons q qs ih =>
    intro h
    have hq : candidateEligible s q = false := h q (List.mem_cons_self q qs)
    simp only [fifoConsume, hq, Bool.false_eq_true, if_false]
    exact ih (fun r hr => h r (List.mem_cons_of_mem q hr))

lemma fifoConsume_some_split {s : AgentState} :
    ∀ {l : List String} {p : String} {rest : List String},
      fifoConsume s l = (some p, rest) →
      ∃ pre, l = pre ++ p :: rest ∧ (∀ q ∈ pre, candidateEligible s q = false) ∧
        candidateEligible s p = true := by
  intro l
  induction l with
  | nil => intro p rest h; simp [fifoConsume] at h
  | cons q qs ih =>
    intro p rest h
    by_cases hq : candidateEligible s q = true
    · simp only [fifoConsume, if_pos hq, Prod.mk.injEq, Option.some.injEq] at h
      rcases h with ⟨rfl, rfl⟩
      exact ⟨[], by simp, by simp, hq⟩
    · simp only [fifoConsume, if_neg hq] at h
      obtain ⟨pre, hsplit, hpre, hp⟩ := ih h
      refine ⟨q :: pre, by simp [hsplit], ?_, hp⟩
      intro r hr
      rcases List.mem_cons.mp hr with rfl | hr'
      · exact Bool.not_eq_true _ ▸ Bool.eq_false_iff.mpr hq
      · exact hpre r hr'

end FrontierLemmas

/-- C10: the FIFO fallback of the path frontier consumes the queue
destructively: a selection discards the whole ineligible prefix before it, a
call finding no eligible candidate empties the queue entirely (already with a
null desired path), a path already visited is never re-enqueued by
addCandidate, and an ineligible nonempty candidate is necessarily a visited
path whenever recorded hits imply visitation (which every dispatch
maintains: markVisited runs before recordHit). -/
theorem candidate_queue_discard (s : AgentState) :
    ((∀ q ∈ s.candidates, candidateEligible s q = false) →
      ∀ toolName, choosePath s toolName none = (none, [])) ∧
    (∀ l p rest, fifoConsume s l = (some p, rest) →
      ∃ pre, l = pre ++ p :: rest ∧ (∀ q ∈ pre, candidateEligible s q = false) ∧
        candidateEligible s p = true) ∧
    (∀ q, q ∈ s.visitedPaths → addCandidate s q = s) ∧
    (∀ q, q ≠ "" → (∀ x, 1 ≤ getCount s.pathHits x → x ∈ s.visitedPaths) →
      candidateEligible s q = false → q ∈ s.visitedPaths) := by
  refine ⟨?_, ?_, ?_, ?_⟩
  · intro h toolName
    have h1 : consumeCandidate s s.candidates true = (none, []) := by
      unfold consumeCandidate
      rw [if_pos rfl, findApiCandidate_none_of_ineligible h,
        fifoConsume_drains_of_ineligible h]
    have h2 : consumeCandidate s ([] : List String) false = (none, []) := rfl
    unfold choosePath
    rw [if_neg (by simp)]
    rw [h1]
    exact h2
  · intro l p rest h
    exact fifoConsume_some_split h
  · intro q hq
    unfold addCandidate
    by_cases h0 : q = ""
    · rw [if_pos h0]
    · rw [if_neg h0, if_pos (List.elem_iff.mpr hq)]
  · intro q hne hinv hq
    by_cases hv : s.visitedPaths.contains q = true
    · exact List.elem_iff.mp hv
    · by_cases hch : canHit s q = true
      · by_cases hsas : staticAndSeen s q = true
        · have h1 : 1 ≤ getCount s.pathHits q := by
            unfold staticAndSeen at hsas
            exact of_decide_eq_true (band_true_iff.mp hsas).2
          exact hinv q h1
        · exfalso
          have hv' : q ∉ s.visitedPaths := fun hmem =>
            hv (List.elem_iff.mpr hmem)
          have helig : candidateEligible s q = true := by
            unfold candidateEligible
            rw [Bool.not_eq_true] at hsas
            simp [hv', hch, hsas]
          rw [hq] at helig
          exact absurd helig (by decide)
      · have h2 : ¬ (getCount s.pathHits q < MAX_HITS_PER_PATH) := by
          unfold canHit at hch
          rw [if_neg hne] at hch
          simpa using hch
        have hM : MAX_HITS_PER_PATH = 2 := rfl
        exact hinv q (by omega)

/-- Witness for the candidate-discard theorem: a queue holding only a visited
path is emptied by a single choosePath call that selects nothing, and the
visited path cannot be re-enqueued. -/
theorem candidate_queue_discard_witness :
    choosePath drainedState "http_get" none = (none, []) ∧
    addCandidate drainedState "/a" = drainedState :=
  ⟨(candidate_queue_discard drainedState).1 (by decide) "http_get",
   (candidate_queue_discard drainedState).2.2.1 "/a" (by decide)⟩

/-- C7: runCortex invokes the LLM at most twice; with no (or empty) API key it
returns the deterministic stub (decision report, usedFallback true) so the
router then stops with decision_report on the first pass; when both attempts
fail to parse or validate it returns the fallback with decision report,
confidence 0.2, the misconfiguration OWASP tag, and llmMeta recording the
attempts, the fallback flag and the last error message. -/
theorem cortex_retry_and_fallback (apiKey : Option String)
    (oracle : Nat → Except String CortexParsed) (s : AgentState) :
    (runCortex apiKey oracle s).2 ≤ 2 ∧
    (apiKey = none →
      runCortex apiKey oracle s = (stubDecision s, 0) ∧
      (stubDecision s).decision = "report" ∧
      (stubDecision s).llmMeta.usedFallback = true ∧
      (stubDecision s).llmMeta.attempts = 0 ∧
      (stubDecision s).llmMeta.reason = some "no_api_key") ∧
    (∀ k e0 e1, apiKey = some k → k ≠ "" → oracle 0 = Except.error e0 →
      oracle 1 = Except.error e1 →
      runCortex apiKey oracle s = (cortexFallback s e1, 2) ∧
      (cortexFallback s e1).decision = "report" ∧
      (cortexFallback s e1).log.confidence_0_1 = 1 / 5 ∧
      (cortexFallback s e1).log.owasp_category =
        some "A05:2021-Security Misconfiguration" ∧
      (cortexFallback s e1).llmMeta.attempts = CORTEX_ATTEMPTS ∧
      (cortexFallback s e1).llmMeta.usedFallback = true ∧
      (cortexFallback s e1).llmMeta.error = some e1) ∧
    (∀ s', s'.hops < MAX_HOPS → s'.metrics.requests < MAX_REQ_PER_RUN →
      s'.consecutiveSkips < 3 → s'.decision = "report" →
      decisionRouter s' = ("report", { s' with stopReason := some "decision_report" })) := by
  refine ⟨?_, ?_, ?_, ?_⟩
  · by_cases hk : apiKey.getD "" = ""
    · simp [runCortex, hk]
    · rcases h0 : oracle 0 with e0 | p0
      · rcases h1 : oracle 1 with e1 | p1
        · simp [runCortex, hk, h0, h1]
        · simp [runCortex, hk, h0, h1]
      · simp [runCortex, hk, h0]
  · intro h
    subst h
    exact ⟨by simp [runCortex], rfl, rfl, rfl, rfl⟩
  · intro k e0 e1 hk hne h0 h1
    have hkd : (apiKey.getD "" = "") = False := by
      subst hk
      simpa using hne
    refine ⟨?_, rfl, rfl, rfl, rfl, rfl, rfl⟩
    simp [runCortex, hkd, h0, h1]
  · intro s' h1 h2 h3 h4
    simp [decisionRouter, h4, Nat.not_le_of_lt h1, Nat.not_le_of_lt h2,
      Nat.not_le_of_lt h3]

/-- Witness for the cortex theorem: with no key the stub is returned without
any LLM call, and a double-failure oracle yields the fallback. -/
theorem cortex_retry_and_fallback_witness :
    runCortex none (fun _ => Except.error "bad json") freshState =
      (stubDecision freshState, 0) ∧
    runCortex (some "k") (fun _ => Except.error "bad json") freshState =
      (cortexFallback freshState "bad json", 2) :=
  ⟨((cortex_retry_and_fallback none (fun _ => Except.error "bad json")
      freshState).2.1 rfl).1,
   ((cortex_retry_and_fallback (some "k") (fun _ => Except.error "bad json")
      freshState).2.2.1 "k" "bad json" "bad json" rfl (by decide) rfl rfl).1⟩

/-- C2 is refuted on the shape of the summary object: writeTrace builds the
summary with findingsCount, owaspCategories, toolUsage and skippedHops only —
there is no batchStats field (src/reporter.js lines 158-163). -/
theorem writeTrace_summary_no_batchStats :
    "batchStats" ∉ summaryJsonKeys ∧
    summaryJsonKeys = ["findingsCount", "owaspCategories", "toolUsage",
      "skippedHops"] := by
  constructor
  · decide
  · rfl

/-- C2 (amended): the trace payload has the claimed top-level fields, its
summary holds findingsCount, owaspCategories, toolUsage and skippedHops (no
batchStats), nodesVisited is the constant three-node list, the budget record
mirrors metrics.requests against the configured maximum, and the OWASP
summary is sorted by descending count. -/
theorem writeTrace_payload_shape (s : AgentState) (fin tgt : String) :
    (writeTrace s fin tgt).nodesVisited = ["probe", "cortex", "report"] ∧
    List.Sorted countGE (writeTrace s fin tgt).summary.owaspCategories ∧
    (writeTrace s fin tgt).summary.findingsCount = (extractFindings s).length ∧
    (writeTrace s fin tgt).summary.toolUsage = s.toolUsage ∧
    (writeTrace s fin tgt).summary.skippedHops = s.skippedHops ∧
    (writeTrace s fin tgt).run_id = s.runId ∧
    (writeTrace s fin tgt).startedAt = s.runStartedAt ∧
    (writeTrace s fin tgt).findings = extractFindings s ∧
    (writeTrace s fin tgt).observations = s.observations ∧
    (writeTrace s fin tgt).reasoningLog = s.reasoningLog ∧
    (writeTrace s fin tgt).metrics = s.metrics ∧
    (writeTrace s fin tgt).llmMeta = s.llmMeta ∧
    (writeTrace s fin tgt).decisions = s.decisions ∧
    (writeTrace s fin tgt).hops = s.hops ∧
    (writeTrace s fin tgt).stopReason = s.stopReason ∧
    (writeTrace s fin tgt).visitedPaths = s.visitedPaths ∧
    (writeTrace s fin tgt).requestBudgetUsed = s.metrics.requests ∧
    (writeTrace s fin tgt).requestBudgetMax = MAX_REQ_PER_RUN ∧
    payloadJsonKeys = ["run_id", "target", "startedAt", "finishedAt",
      "summary", "findings", "observations", "reasoningLog", "metrics",
      "llmMeta", "decisions", "hops", "stopReason", "visitedPaths",
      "requestBudget", "nodesVisited"] ∧
    requestBudgetJsonKeys = ["used", "max"] := by
  refine ⟨rfl, ?_, rfl, rfl, rfl, rfl, rfl, rfl, rfl, rfl, rfl, rfl, rfl,
    rfl, rfl, rfl, rfl, rfl, rfl, rfl⟩
  exact List.sorted_insertionSort countGE (owaspCounts s.reasoningLog)

section FindingsLemmas

lemma dedupFoldP_keys :
    ∀ (l : List (String × Finding)) (seen : List String),
      ((dedupFoldP l seen).map Prod.fst).Nodup ∧
      ∀ k ∈ (dedupFoldP l seen).map Prod.fst, k ∉ seen := by
  intro l
  induction l with
  | nil => intro seen; exact ⟨List.nodup_nil, by simp [dedupFoldP]⟩
  | cons e rest ih =>
    obtain ⟨k, f⟩ := e
    intro seen
    by_cases hk : seen.contains k = true
    · simp only [dedupFoldP, if_pos hk]
      exact ih seen
    · simp only [dedupFoldP, if_neg hk, List.map_cons]
      obtain ⟨hnd, hfr⟩ := ih (k :: seen)
      constructor
      · rw [List.nodup_cons]
        refine ⟨fun hmem => ?_, hnd⟩
        exact hfr k hmem (List.mem_cons_self k seen)
      · intro key hkey
        rcases List.mem_cons.mp hkey with rfl | hk'
        · exact fun hmem => hk (List.elem_iff.mpr hmem)
        · intro hmem
          exact hfr key hk' (List.mem_cons_of_mem k hmem)

lemma dedupFoldP_subset :
    ∀ (l : List (String × Finding)) (seen : List String) (x : String × Finding),
      x ∈ dedupFoldP l seen → x ∈ l := by
  intro l
  induction l with
  | nil => intro seen x hx; simp [dedupFoldP] at hx
  | cons e rest ih =>
    obtain ⟨k, f⟩ := e
    intro seen x hx
    by_cases hk : seen.contains k = true
    · simp only [dedupFoldP, if_pos hk] at hx
      exact List.mem_cons_of_mem _ (ih seen x hx)
    · simp only [dedupFoldP, if_neg hk] at hx
      rcases List.mem_cons.mp hx with rfl | hx'
      · exact List.mem_cons_self _ _
      · exact List.mem_cons_of_mem _ (ih (k :: seen) x hx')

lemma mem_ite_singleton {α : Type} {x y : α} {c : Prop} [Decidable c]
    (h : x ∈ (if c then [y] else ([] : List α))) : x = y := by
  by_cases hc : c
  · rw [if_pos hc] at h
    simpa using h
  · rw [if_neg hc] at h
    simp at h

lemma obsFindingCandidates_key (o : Observation) :
    ∀ x ∈ obsFindingCandidates o, x.1 = dedupKeyOf x.2 := by
  intro x hx
  unfold obsFindingCandidates at hx
  simp only [List.mem_append] at hx
  rcases hx with ((((h | h) | h) | h) | h) | h
  · rw [mem_ite_singleton h]
    simp [dedupKeyOf]
  · rw [mem_ite_singleton h]
    simp [dedupKeyOf]
  · rw [mem_ite_singleton h]
    simp [dedupKeyOf]
  · rw [mem_ite_singleton h]
    simp [dedupKeyOf]
  · rw [mem_ite_singleton h]
    simp [dedupKeyOf]
  · rw [mem_ite_singleton h]
    simp [dedupKeyOf]

end FindingsLemmas

/-- C6: the findings list carries pairwise-distinct dedup keys (so at most one
cors_wildcard, missing_hsts, missing_csp, server_disclosure finding per run
and at most one stack_trace or auth_disclosure per pathname), and an empty
observations list yields no findings at all, the missing-header findings
included. -/
theorem findings_deduped (s : AgentState) :
    ((extractFindings s).map dedupKeyOf).Nodup ∧
    (s.observations = [] → extractFindings s = []) := by
  constructor
  · have h1 := (dedupFoldP_keys ((s.observations.map obsFindingCandidates).flatten) []).1
    have h2 : (extractFindings s).map dedupKeyOf =
        (extractFindingsK s).map Prod.fst := by
      unfold extractFindings
      rw [List.map_map]
      apply List.map_congr_left
      intro x hx
      have hxl : x ∈ (s.observations.map obsFindingCandidates).flatten :=
        dedupFoldP_subset _ _ _ hx
      rw [List.mem_flatten] at hxl
      obtain ⟨lo, hlo, hxlo⟩ := hxl
      rw [List.mem_map] at hlo
      obtain ⟨o, ho, rfl⟩ := hlo
      exact (obsFindingCandidates_key o x hxlo).symm
    rw [h2]
    exact h1
  · intro h
    simp [extractFindings, extractFindingsK, h, dedupFoldP]

/-- Witness for the dedup theorem: the empty run emits no findings. -/
theorem findings_deduped_witness : extractFindings freshState = [] :=
  (findings_deduped freshState).2 rfl

end Atlas
